import Mathlib

/-!
Verification development for the clima-scope report pipeline and map
artifact store (`src/backend/app/services/pipeline.py` and
`src/backend/app/services/map_storage.py`).

The Python services are shallowly embedded: the filesystem used by the
map storage service is an explicit association list from paths to file
contents, datetimes are abstract ticks (`Nat`) whose ISO round trip is
the identity, and the proleptic-Gregorian ordinal / ISO-calendar
computations of the Python `datetime.date` class are ported verbatim.
-/

namespace ClimaScope

/-! ## Calendar model (Python `datetime.date`) -/

/-- A calendar date, as validated by `datetime.fromisoformat` on a
`YYYY-MM-DD` string. -/
structure Date where
  year : Nat
  month : Nat
  day : Nat
deriving DecidableEq, Repr

/-- Gregorian leap-year rule, as in `datetime`. -/
def isLeap (y : Nat) : Bool :=
  (y % 4 == 0 && y % 100 != 0) || y % 400 == 0

/-- Days in a month of a given year. -/
def daysInMonth (y m : Nat) : Nat :=
  if m == 2 then (if isLeap y then 29 else 28)
  else if m == 4 || m == 6 || m == 9 || m == 11 then 30
  else 31

/-- Days in the months strictly before month `m` of year `y`. -/
def daysBeforeMonth (y m : Nat) : Nat :=
  (List.range (m - 1)).foldl (fun acc i => acc + daysInMonth y (i + 1)) 0

/-- Days in all years strictly before year `y` (proleptic Gregorian),
as in `datetime.date.toordinal`. -/
def daysBeforeYear (y : Nat) : Nat :=
  let n := y - 1
  365 * n + n / 4 - n / 100 + n / 400

/-- Python `date.toordinal`: day 1 is 0001-01-01. -/
def Date.toordinal (d : Date) : Nat :=
  daysBeforeYear d.year + daysBeforeMonth d.year d.month + d.day

/-- Ordinal of the Monday starting ISO week 1 of year `y`
(port of CPython `datetime._isoweek1monday`). -/
def isoweek1monday (y : Nat) : Int :=
  let firstday : Int := (Date.toordinal ⟨y, 1, 1⟩ : Nat)
  let firstweekday : Int := (firstday + 6) % 7
  let week1monday := firstday - firstweekday
  if firstweekday > 3 then week1monday + 7 else week1monday

/-- ISO-8601 week number, port of `date.isocalendar()[1]`. -/
def Date.isoWeek (d : Date) : Nat :=
  let today : Int := (d.toordinal : Nat)
  let week1monday := isoweek1monday d.year
  if today < week1monday then
    ((today - isoweek1monday (d.year - 1)) / 7 + 1).toNat
  else
    let week := (today - week1monday) / 7
    if week ≥ 52 && today ≥ isoweek1monday (d.year + 1) then 1
    else (week + 1).toNat

/-- Character is an ASCII digit. -/
def isDigitCh (c : Char) : Bool :=
  '0' ≤ c && c ≤ '9'

/-- Numeric value of a digit string. -/
def digitsToNat (cs : List Char) : Nat :=
  cs.foldl (fun acc c => acc * 10 + (c.toNat - 48)) 0

/-- Model of `datetime.fromisoformat` restricted to the `YYYY-MM-DD`
layout the services feed it: `none` models the `ValueError` raised for
an unparseable period string. -/
def parseDate (s : String) : Option Date :=
  match s.toList with
  | [y1, y2, y3, y4, h1, m1, m2, h2, d1, d2] =>
    if h1 == '-' && h2 == '-' &&
        ([y1, y2, y3, y4, m1, m2, d1, d2].all isDigitCh) then
      let y := digitsToNat [y1, y2, y3, y4]
      let mo := digitsToNat [m1, m2]
      let da := digitsToNat [d1, d2]
      if 1 ≤ y && 1 ≤ mo && mo ≤ 12 && 1 ≤ da && da ≤ daysInMonth y mo then
        some ⟨y, mo, da⟩
      else none
    else none
  | _ => none

/-- Python `f"{week:02d}"`. -/
def pad2 (n : Nat) : String :=
  if n < 10 then "0" ++ toString n else toString n

/-! ## Map storage service (`map_storage.py`) -/

/-- Weather variables that can be mapped (`MapVariable`). -/
inductive MapVariable where
  | rainfall
  | temperature
  | wind
deriving DecidableEq, Repr

/-- The `.value` of a `MapVariable` enum member. -/
def MapVariable.value : MapVariable → String
  | .rainfall => "rainfall"
  | .temperature => "temperature"
  | .wind => "wind"

/-- `MapVariable(s)` construction: `none` models the `ValueError` raised
on an unknown enum value. -/
def MapVariable.fromString : String → Option MapVariable
  | "rainfall" => some .rainfall
  | "temperature" => some .temperature
  | "wind" => some .wind
  | _ => none

/-- Supported map image formats (`MapFormat`). -/
inductive MapFormat where
  | png
  | svg
  | jpeg
deriving DecidableEq, Repr

/-- The `.value` of a `MapFormat` enum member. -/
def MapFormat.value : MapFormat → String
  | .png => "png"
  | .svg => "svg"
  | .jpeg => "jpeg"

/-- `MapFormat(s)` construction. -/
def MapFormat.fromString : String → Option MapFormat
  | "png" => some .png
  | "svg" => some .svg
  | "jpeg" => some .jpeg
  | _ => none

/-- JSON-ish values appearing in a sidecar dictionary.  Datetimes are
abstract ticks (`Nat`): `isoformat` / `fromisoformat` round-trip a
`datetime` exactly, so serialisation is the identity on the tick.
`bounds` values are kept opaque as strings. -/
inductive Val where
  | vstr : String → Val
  | vnat : Nat → Val
  | vlist : List String → Val
  | vdict : List (String × String) → Val
deriving DecidableEq, Repr

/-- A JSON object: insertion-ordered association list with unique keys,
as a Python `dict`. -/
abbrev Dict := List (String × Val)

/-- Python `d[k] = v` / later-key-wins merge: overwrite in place if the
key exists, else append. -/
def dictSet (d : Dict) (k : String) (v : Val) : Dict :=
  if d.any (fun p => p.1 == k) then
    d.map (fun p => if p.1 == k then (k, v) else p)
  else d ++ [(k, v)]

/-- Python `d[k]` / `d.get(k)`. -/
def dictGet (d : Dict) (k : String) : Option Val :=
  (d.find? (fun p => p.1 == k)).map (fun p => p.2)

/-- `MapMetadata` (the sidecar record).  `generated_at` is an abstract
tick; `extra` holds the `**kwargs` captured by the constructor. -/
structure MapMetadata where
  county_id : String
  var : MapVariable
  period_start : String
  period_end : String
  file_path : String
  format : MapFormat
  resolution_dpi : Nat
  width_px : Nat
  height_px : Nat
  generated_at : Nat
  bounds : List (String × String)
  quality_flags : List String
  extra : Dict
deriving DecidableEq, Repr

/-- The keyword arguments `store_map` forwards to the `MapMetadata`
constructor via `**(metadata or {})`: optional overrides for the named
descriptive parameters plus arbitrary extra keys. -/
structure ExtraMeta where
  resolution_dpi : Option Nat := none
  width_px : Option Nat := none
  height_px : Option Nat := none
  generated_at : Option Nat := none
  bounds : Option (List (String × String)) := none
  quality_flags : Option (List String) := none
  extra : Dict := []
deriving DecidableEq, Repr

/-- `MapMetadata.__init__` with its defaults (`resolution_dpi=300`,
`width_px=1200`, `height_px=900`, `generated_at or datetime.utcnow()`,
`bounds or {}`, `quality_flags or []`); `now` is the current tick. -/
def MapMetadata.build (county_id : String) (var : MapVariable)
    (period_start period_end : String) (file_path : String)
    (format : MapFormat) (kw : ExtraMeta) (now : Nat) : MapMetadata :=
  { county_id := county_id
    var := var
    period_start := period_start
    period_end := period_end
    file_path := file_path
    format := format
    resolution_dpi := kw.resolution_dpi.getD 300
    width_px := kw.width_px.getD 1200
    height_px := kw.height_px.getD 900
    generated_at := kw.generated_at.getD now
    bounds := kw.bounds.getD []
    quality_flags := kw.quality_flags.getD []
    extra := kw.extra }

/-- `MapMetadata.to_dict`: the named fields in declaration order, with
the `extra` kwargs merged in last (later keys win, as in a Python dict
literal with a final `**self.extra`). -/
def MapMetadata.toDict (m : MapMetadata) : Dict :=
  m.extra.foldl (fun d p => dictSet d p.1 p.2)
    [("county_id", .vstr m.county_id),
     ("variable", .vstr m.var.value),
     ("period_start", .vstr m.period_start),
     ("period_end", .vstr m.period_end),
     ("file_path", .vstr m.file_path),
     ("format", .vstr m.format.value),
     ("resolution_dpi", .vnat m.resolution_dpi),
     ("width_px", .vnat m.width_px),
     ("height_px", .vnat m.height_px),
     ("generated_at", .vnat m.generated_at),
     ("bounds", .vdict m.bounds),
     ("quality_flags", .vlist m.quality_flags)]

/-- `MapMetadata.from_dict`: the seven keys read with `data[...]` are
required (a missing or ill-typed one models the uncaught
`KeyError`/`ValueError`, giving `none`); `resolution_dpi`, `width_px`,
`height_px`, `bounds`, `quality_flags` fall back to the constructor
defaults via `.get`; unknown keys are dropped (`from_dict` passes no
`**kwargs`). -/
def MapMetadata.fromDict (d : Dict) : Option MapMetadata :=
  match dictGet d "county_id", dictGet d "variable",
      dictGet d "period_start", dictGet d "period_end",
      dictGet d "file_path", dictGet d "format",
      dictGet d "generated_at" with
  | some (.vstr ci), some (.vstr vs), some (.vstr ps), some (.vstr pe),
      some (.vstr fp), some (.vstr fo), some (.vnat ga) =>
    match MapVariable.fromString vs, MapFormat.fromString fo with
    | some v, some fm =>
      some
        { county_id := ci
          var := v
          period_start := ps
          period_end := pe
          file_path := fp
          format := fm
          resolution_dpi :=
            match dictGet d "resolution_dpi" with
            | some (.vnat n) => n
            | _ => 300
          width_px :=
            match dictGet d "width_px" with
            | some (.vnat n) => n
            | _ => 1200
          height_px :=
            match dictGet d "height_px" with
            | some (.vnat n) => n
            | _ => 900
          generated_at := ga
          bounds :=
            match dictGet d "bounds" with
            | some (.vdict b) => b
            | _ => []
          quality_flags :=
            match dictGet d "quality_flags" with
            | some (.vlist q) => q
            | _ => []
          extra := [] }
    | _, _ => none
  | _, _, _, _, _, _, _ => none

/-- Contents of one stored file: a binary image (its bytes) or a JSON
sidecar (its parsed dictionary). -/
inductive FileContent where
  | bin : List Nat → FileContent
  | meta : Dict → FileContent
deriving DecidableEq, Repr

/-- The storage tree under `base_path`: association list from
(relative) path to content. -/
abbrev FS := List (String × FileContent)

/-- `Path.exists` / read: first (unique) binding for a path. -/
def fsLookup (fs : FS) (p : String) : Option FileContent :=
  (fs.find? (fun q => q.1 == p)).map (fun q => q.2)

/-- Write (create or overwrite) a file.  The association order of the
listing is immaterial to the directory tree being modelled, so an
overwrite drops the old binding and appends the new one. -/
def fsWrite (fs : FS) (p : String) (c : FileContent) : FS :=
  fs.filter (fun q => q.1 != p) ++ [(p, c)]

/-- `Path.unlink`. -/
def fsRemove (fs : FS) (p : String) : FS :=
  fs.filter (fun q => q.1 != p)

/-- `Path.exists()`. -/
def fsExists (fs : FS) (p : String) : Bool :=
  (fsLookup fs p).isSome

/-- Bytes of a file treated as an image source (`shutil.copy2` input);
the services only ever copy binaries. -/
def FileContent.bytes : FileContent → List Nat
  | .bin b => b
  | .meta _ => []

/-- Errors raised by the storage service.  `metadataMissing` and
`invalidPeriod` are the `MapStorageError` variants the spec names;
`metaParseError` models the uncaught exception escaping
`MapMetadata.from_dict` on a corrupt sidecar read in `store_map`. -/
inductive StoreErr where
  | sourceNotFound : String → StoreErr
  | invalidPeriod : String → StoreErr
  | metadataMissing : String → StoreErr
  | metaParseError : StoreErr
deriving DecidableEq, Repr

/-- `_build_file_name`:
`{county_id}_{variable}_{period_start}_{period_end}.{ext}`. -/
def build_file_name (county_id : String) (var : MapVariable)
    (period_start period_end : String) (format : MapFormat) : String :=
  county_id ++ "_" ++ var.value ++ "_" ++ period_start ++ "_" ++
    period_end ++ "." ++ format.value

/-- The directory part of `_build_storage_path` once `period_start` has
parsed: `{county_id}/{year}/{week:02d}` (relative to `base_path`). -/
def build_storage_dir (county_id : String) (d : Date) : String :=
  county_id ++ "/" ++ toString d.year ++ "/" ++ pad2 d.isoWeek

/-- Full destination path of the artifact for an identity tuple whose
`period_start` parses to `d`. -/
def destPath (county_id : String) (var : MapVariable)
    (period_start period_end : String) (format : MapFormat)
    (d : Date) : String :=
  build_storage_dir county_id d ++ "/" ++
    build_file_name county_id var period_start period_end format

/-- `_metadata_path`: `Path.with_suffix(".meta.json")` replaces the
final extension (everything from the last dot) of the file name. -/
def beforeLastDot (cs : List Char) : List Char :=
  match (cs.reverse).findIdx? (fun c => c == '.') with
  | some i => ((cs.reverse).drop (i + 1)).reverse
  | none => cs

/-- Sidecar path for a map file path. -/
def metadata_path (p : String) : String :=
  String.mk (beforeLastDot p.toList) ++ ".meta.json"

/-- `MapStorageService.store_map`.  `now` is the current tick;
`sidecar_write_fails` injects the I/O failure of the sidecar
`json.dump` (caught and logged by the source, lines 254-260).  The
result pairs the returned/raised value with the filesystem after the
call. -/
def store_map (fs : FS) (source_file : String) (county_id : String)
    (var : MapVariable) (period_start period_end : String)
    (format : MapFormat) (kw : ExtraMeta) (overwrite : Bool)
    (now : Nat) (sidecar_write_fails : Bool) :
    Except StoreErr MapMetadata × FS :=
  match fsLookup fs source_file with
  | none => (.error (.sourceNotFound source_file), fs)
  | some src =>
    match parseDate period_start with
    | none => (.error (.invalidPeriod period_start), fs)
    | some d =>
      let dest := destPath county_id var period_start period_end format d
      if fsExists fs dest && !overwrite then
        match fsLookup fs (metadata_path dest) with
        | some (.meta dct) =>
          match MapMetadata.fromDict dct with
          | some m => (.ok m, fs)
          | none => (.error .metaParseError, fs)
        | some (.bin _) => (.error .metaParseError, fs)
        | none => (.error (.metadataMissing dest), fs)
      else
        let fs1 := fsWrite fs dest (.bin src.bytes)
        let m := MapMetadata.build county_id var period_start period_end
          dest format kw now
        let fs2 :=
          if sidecar_write_fails then fs1
          else fsWrite fs1 (metadata_path dest) (.meta m.toDict)
        (.ok m, fs2)

/-- `MapStorageService.get_map`.  A parse failure of the sidecar is
caught and falls through to the identity-tuple fallback metadata. -/
def get_map (fs : FS) (county_id : String) (var : MapVariable)
    (period_start period_end : String) (format : MapFormat)
    (now : Nat) : Except StoreErr (Option MapMetadata) :=
  match parseDate period_start with
  | none => .error (.invalidPeriod period_start)
  | some d =>
    let map_path := destPath county_id var period_start period_end format d
    match fsLookup fs map_path with
    | none => .ok none
    | some _ =>
      let fallback := MapMetadata.build county_id var period_start
        period_end map_path format {} now
      match fsLookup fs (metadata_path map_path) with
      | some (.meta dct) =>
        match MapMetadata.fromDict dct with
        | some m => .ok (some m)
        | none => .ok (some fallback)
      | some (.bin _) => .ok (some fallback)
      | none => .ok (some fallback)

/-- `MapStorageService.delete_map`. -/
def delete_map (fs : FS) (county_id : String) (var : MapVariable)
    (period_start period_end : String) (format : MapFormat) :
    Except StoreErr Bool × FS :=
  match parseDate period_start with
  | none => (.error (.invalidPeriod period_start), fs)
  | some d =>
    let map_path := destPath county_id var period_start period_end format d
    if fsExists fs map_path then
      let fs1 := fsRemove fs map_path
      let fs2 :=
        if fsExists fs1 (metadata_path map_path) then
          fsRemove fs1 (metadata_path map_path)
        else fs1
      (.ok true, fs2)
    else (.ok false, fs)

/-- Suffix test on strings (kernel-reducible formulation of
`String.endsWith`). -/
def strEndsWith (s t : String) : Bool :=
  let cs := s.toList
  let ct := t.toList
  ct == cs.drop (cs.length - ct.length)

/-- Split a character list at every occurrence of `c` (semantics of
`String.splitOn` with a one-character separator). -/
def splitChar (c : Char) : List Char → List (List Char)
  | [] => [[]]
  | x :: xs =>
    let r := splitChar c xs
    if x == c then [] :: r
    else
      match r with
      | [] => [[x]]
      | h :: t => (x :: h) :: t

/-- Path components of a stored path (split on `/`). -/
def splitPathComponents (p : String) : List String :=
  (splitChar '/' p.toList).map String.mk

/-- The directory-scan narrowing of `list_maps` for a stored artifact
path `{county}/{year}/{week}/{file}`: all three of county/year/week
select one directory; a county filter alone selects the county
subtree; otherwise the whole store is scanned (a year or week filter
without a county is ignored, as in the source). -/
def matchesScan (county_id : Option String) (year week : Option Nat)
    (p : String) : Bool :=
  match splitPathComponents p with
  | [c, y, w, _f] =>
    match county_id, year, week with
    | some c0, some y0, some w0 =>
      c == c0 && y == toString y0 && w == pad2 w0
    | some c0, _, _ => c == c0
    | none, _, _ => true
  | _ => false

/-- Stable insertion (descending `generated_at`) for the final
`sorted(..., reverse=True)`. -/
def insertDesc (m : MapMetadata) : List MapMetadata → List MapMetadata
  | [] => [m]
  | x :: xs =>
    if x.generated_at < m.generated_at then m :: x :: xs
    else x :: insertDesc m xs

/-- Sort by `generated_at` descending. -/
def sortDesc (l : List MapMetadata) : List MapMetadata :=
  l.foldl (fun acc m => insertDesc m acc) []

/-- `MapStorageService.list_maps`: glob `*.png` inside the scanned
directories, keep entries whose sidecar exists and parses, apply the
variable filter, sort by `generated_at` descending.  Entries whose
sidecar is missing or fails to parse are skipped. -/
def list_maps (fs : FS) (county_id : Option String)
    (var : Option MapVariable) (year week : Option Nat) :
    List MapMetadata :=
  let candidates := fs.filter (fun pc =>
    strEndsWith pc.1 ".png" && matchesScan county_id year week pc.1)
  let metas := candidates.filterMap (fun pc =>
    match fsLookup fs (metadata_path pc.1) with
    | some (.meta dct) =>
      match MapMetadata.fromDict dct with
      | some m =>
        match var with
        | some v => if m.var == v then some m else none
        | none => some m
      | none => none
    | _ => none)
  sortDesc metas

/-! ## Pipeline orchestration (`pipeline.py`) -/

/-- `PipelineStage`. -/
inductive PipelineStage where
  | validating
  | generating_narratives
  | awaiting_maps
  | generating_pdf
  | storing_artifacts
  | completed
  | failed
deriving DecidableEq, Repr

/-- The `.value` of a `PipelineStage` enum member. -/
def PipelineStage.value : PipelineStage → String
  | .validating => "validating"
  | .generating_narratives => "generating_narratives"
  | .awaiting_maps => "awaiting_maps"
  | .generating_pdf => "generating_pdf"
  | .storing_artifacts => "storing_artifacts"
  | .completed => "completed"
  | .failed => "failed"

/-- `PipelineStatus`. -/
inductive PipelineStatus where
  | pending
  | running
  | completed
  | failed
  | cancelled
deriving DecidableEq, Repr

/-- Mutable state of a `PipelineExecution`.  Timestamps are abstract
ticks; `raw_data` is modelled by the set of its top-level keys, the
only thing stage 1 inspects. -/
structure PipelineExecution where
  pipeline_id : String
  county_id : String
  period_start : String
  period_end : String
  raw_data : List String
  status : PipelineStatus
  current_stage : PipelineStage
  progress : Nat
  started_at : Option Nat
  completed_at : Option Nat
  error : Option String
  weather_report_id : Option Nat
  complete_report_id : Option Nat
  pdf_report_id : Option Nat
  stages_completed : List String
  current_stage_started_at : Option Nat
deriving DecidableEq, Repr

/-- `PipelineExecution.__init__`. -/
def PipelineExecution.create (pipeline_id county_id : String)
    (period_start period_end : String) (raw_keys : List String) :
    PipelineExecution :=
  { pipeline_id := pipeline_id
    county_id := county_id
    period_start := period_start
    period_end := period_end
    raw_data := raw_keys
    status := .pending
    current_stage := .validating
    progress := 0
    started_at := none
    completed_at := none
    error := none
    weather_report_id := none
    complete_report_id := none
    pdf_report_id := none
    stages_completed := []
    current_stage_started_at := none }

/-- `PipelineExecution.start`. -/
def PipelineExecution.start (e : PipelineExecution) (now : Nat) :
    PipelineExecution :=
  { e with status := .running, started_at := some now, progress := 0 }

/-- `PipelineExecution.update_stage`: appends the *previous* stage
name to `stages_completed` (unless it is `failed`), then moves to the
new stage and progress. -/
def PipelineExecution.update_stage (e : PipelineExecution)
    (stage : PipelineStage) (progress : Nat) (now : Nat) :
    PipelineExecution :=
  let sc :=
    if e.current_stage ≠ PipelineStage.failed then
      e.stages_completed ++ [e.current_stage.value]
    else e.stages_completed
  { e with
    stages_completed := sc
    current_stage := stage
    current_stage_started_at := some now
    progress := progress }

/-- `PipelineExecution.complete`.  (The subsequent duration log line
reads `started_at`, which `execute_pipeline` always sets via `start`
before any stage runs.) -/
def PipelineExecution.complete (e : PipelineExecution) (now : Nat) :
    PipelineExecution :=
  { e with
    status := .completed
    current_stage := .completed
    progress := 100
    completed_at := some now }

/-- `PipelineExecution.fail`. -/
def PipelineExecution.fail (e : PipelineExecution) (msg : String)
    (now : Nat) : PipelineExecution :=
  { e with
    status := .failed
    current_stage := .failed
    error := some msg
    completed_at := some now }

/-- Environment supplying the outcomes of the external
collaborators: the reference county table, the database insert of
stage 2 (`narrative_insert_ok`, with the id it would assign), the map
store filesystem read by stage 3, and the clock. -/
structure PipelineEnv where
  counties : List String
  narrative_insert_ok : Bool
  db_weather_report_id : Nat
  maps_fs : FS
  now : Nat
deriving Repr

/-- The required top-level payload keys checked by `_validate_input`. -/
def required_fields : List String :=
  ["county_id", "county_name", "period", "variables", "metadata"]

/-- `_validate_input`: first missing required key, else unknown county;
`none` means validation passed. -/
def validate_input (e : PipelineExecution) (env : PipelineEnv) :
    Option String :=
  match required_fields.find? (fun f => !(e.raw_data.contains f)) with
  | some f => some ("Missing required field: " ++ f)
  | none =>
    if env.counties.contains e.county_id then none
    else some ("County not found: " ++ e.county_id)

/-- `_check_maps`: one `get_map` per fixed variable with the
county/period of the execution; an error from the store (unparseable
`period_start`) propagates. -/
def check_maps (e : PipelineExecution) (env : PipelineEnv) :
    Except StoreErr (List (String × Bool)) :=
  match get_map env.maps_fs e.county_id .rainfall e.period_start
      e.period_end .png env.now with
  | .error er => .error er
  | .ok r =>
    match get_map env.maps_fs e.county_id .temperature e.period_start
        e.period_end .png env.now with
    | .error er => .error er
    | .ok t =>
      match get_map env.maps_fs e.county_id .wind e.period_start
          e.period_end .png env.now with
      | .error er => .error er
      | .ok w =>
        .ok [("rainfall", r.isSome), ("temperature", t.isSome),
             ("wind", w.isSome)]

/-- `PipelineService.execute_pipeline` applied to a registered
execution: `start`, the five stages with their fixed
`update_stage` checkpoints, then `complete`, or `fail` at the first
stage exception (which `execute` wraps as `"Pipeline failed: ..."`).
The returned execution is the state left in the registry. -/
def execute_pipeline (e0 : PipelineExecution) (env : PipelineEnv) :
    PipelineExecution :=
  let e1 := e0.start env.now
  let e2 := e1.update_stage .validating 5 env.now
  match validate_input e2 env with
  | some msg => e2.fail ("Pipeline failed: " ++ msg) env.now
  | none =>
    let e3 := e2.update_stage .validating 10 env.now
    let e4 := e3.update_stage .generating_narratives 15 env.now
    if !env.narrative_insert_ok then
      e4.fail "Pipeline failed: narrative persistence error" env.now
    else
      let e5 := { e4 with
        weather_report_id := some env.db_weather_report_id }
      let e6 := e5.update_stage .generating_narratives 40 env.now
      let e7 := e6.update_stage .awaiting_maps 45 env.now
      match check_maps e7 env with
      | .error _ =>
        e7.fail "Pipeline failed: Invalid period_start format" env.now
      | .ok _maps_available =>
        let e8 := e7.update_stage .awaiting_maps 50 env.now
        let e9 := e8.update_stage .generating_pdf 55 env.now
        let e10 := { e9 with pdf_report_id := e9.weather_report_id }
        let e11 := e10.update_stage .generating_pdf 80 env.now
        let e12 := e11.update_stage .storing_artifacts 85 env.now
        let e13 := e12.update_stage .storing_artifacts 95 env.now
        e13.complete env.now

/-- The in-memory registry `active_pipelines` of the orchestrator. -/
abbrev Registry := List (String × PipelineExecution)

/-- `active_pipelines.get(pipeline_id)`. -/
def regGet (reg : Registry) (id : String) : Option PipelineExecution :=
  (reg.find? (fun q => q.1 == id)).map (fun q => q.2)

/-- `active_pipelines[pipeline_id] = e` (binding order immaterial). -/
def regSet (reg : Registry) (id : String) (e : PipelineExecution) :
    Registry :=
  reg.filter (fun q => q.1 != id) ++ [(id, e)]

/-- `PipelineService.create_pipeline`. -/
def create_pipeline (reg : Registry) (pipeline_id county_id : String)
    (period_start period_end : String) (raw_keys : List String) :
    PipelineExecution × Registry :=
  let e := PipelineExecution.create pipeline_id county_id period_start
    period_end raw_keys
  (e, regSet reg pipeline_id e)

/-- `PipelineService.cancel_pipeline`: `False` when the id is unknown
or the status is `COMPLETED`/`FAILED`; otherwise set `CANCELLED`,
stamp `completed_at`, return `True`. -/
def cancel_pipeline (reg : Registry) (id : String) (now : Nat) :
    Bool × Registry :=
  match regGet reg id with
  | none => (false, reg)
  | some e =>
    if e.status = PipelineStatus.completed ∨
        e.status = PipelineStatus.failed then
      (false, reg)
    else
      (true, regSet reg id
        { e with status := .cancelled, completed_at := some now })

/-! ## Concrete scenario states and the execution invariant -/

/-- Store state after storing an svg artifact (binary and sidecar both
written). -/
def svgStoreFs : FS :=
  (store_map [("source.svg", .bin [7, 7])] "source.svg" "31" .rainfall
    "2026-01-27" "2026-02-02" .svg {} false 3 false).2

/-- Store state after a png store whose sidecar write failed: binary
present, sidecar absent. -/
def pngNoSidecarFs : FS :=
  (store_map [("source.png", .bin [8])] "source.png" "31" .rainfall
    "2026-01-27" "2026-02-02" .png {} false 3 true).2

/-- A pipeline created with the standard five-key payload, as the
request facade submits it. -/
def c1Created : PipelineExecution :=
  PipelineExecution.create "p1" "31" "2026-01-27" "2026-02-02"
    required_fields

/-- The same execution mid-run: started, past validation, inside the
PDF stage (as `execute_pipeline` leaves it between checkpoints). -/
def c1MidRun : PipelineExecution :=
  ((c1Created.start 1).update_stage .validating 5 1).update_stage
    .generating_pdf 55 2

/-- Registry holding the mid-run execution. -/
def c1Reg : Registry := [("p1", c1MidRun)]

/-- The execution after a concurrent `cancel_pipeline` lands mid-run:
status Cancelled (terminal). -/
def c1AfterCancel : PipelineExecution :=
  { c1MidRun with status := .cancelled, completed_at := some 3 }

/-- A completed execution (terminal status Completed). -/
def c1Completed : PipelineExecution :=
  c1MidRun.complete 4

/-- Execution already cancelled, registered under id "a". -/
def c3CancelledExec : PipelineExecution :=
  { PipelineExecution.create "a" "31" "2026-01-27" "2026-02-02"
      required_fields with
    status := .cancelled, completed_at := some 2, progress := 45,
    current_stage := .awaiting_maps }

/-- Registry for the C3 counterexample. -/
def c3Reg : Registry := [("a", c3CancelledExec)]

/-- Environment for the P7 scenario: county 31 known, narrative
persistence succeeds assigning id 42, empty map store. -/
def c4Env : PipelineEnv :=
  { counties := ["31"], narrative_insert_ok := true,
    db_weather_report_id := 42, maps_fs := [], now := 10 }

/-- Freshly created execution with the five required payload keys. -/
def c4Exec : PipelineExecution :=
  PipelineExecution.create "p" "31" "2026-01-27" "2026-02-02"
    required_fields

/-- Result of executing the P7 scenario. -/
def c4Result : PipelineExecution := execute_pipeline c4Exec c4Env

/-- The `stages_completed` list `execute_pipeline` actually produces:
`update_stage` appends the previous stage name at every checkpoint
(two per stage, three while still validating), so each of the first
four stage names repeats. -/
def actualStagesCompleted : List String :=
  ["validating", "validating", "validating",
   "generating_narratives", "generating_narratives",
   "awaiting_maps", "awaiting_maps",
   "generating_pdf", "generating_pdf", "storing_artifacts"]

/-- The execution-record invariant of the spec: full progress entails
Completed, and a Failed or Cancelled execution carries a completion
timestamp. -/
def ExecInv (e : PipelineExecution) : Prop :=
  (e.progress = 100 → e.status = PipelineStatus.completed) ∧
  ((e.status = PipelineStatus.failed ∨
      e.status = PipelineStatus.cancelled) → e.completed_at ≠ none)

instance (e : PipelineExecution) : Decidable (ExecInv e) := by
  unfold ExecInv
  infer_instance

/-! ## Helper lemmas -/

theorem fsLookup_cons (q : String × FileContent) (t : FS) (p : String) :
    fsLookup (q :: t) p = if q.1 == p then some q.2 else fsLookup t p := by
  simp only [fsLookup, List.find?_cons]
  cases h : q.1 == p <;> simp [h]

theorem fsLookup_filter_ne (fs : FS) (p q : String) (h : q ≠ p) :
    fsLookup (fs.filter (fun r => r.1 != p)) q = fsLookup fs q := by
  induction fs with
  | nil => rfl
  | cons r t ih =>
    by_cases hr : r.1 = p
    · have hpq : (p == q) = false := by
        simp
        exact fun hc => h hc.symm
      simp [List.filter_cons, hr, fsLookup_cons, hpq, ih]
    · simp [List.filter_cons, hr, fsLookup_cons, ih]

theorem fsLookup_filter_self (fs : FS) (p : String) :
    fsLookup (fs.filter (fun r => r.1 != p)) p = none := by
  induction fs with
  | nil => rfl
  | cons r t ih =>
    by_cases hr : r.1 = p
    · simp [List.filter_cons, hr, ih]
    · simp [List.filter_cons, hr, fsLookup_cons, ih]

theorem fsLookup_append (fs1 fs2 : FS) (p : String) :
    fsLookup (fs1 ++ fs2) p =
      match fsLookup fs1 p with
      | some c => some c
      | none => fsLookup fs2 p := by
  induction fs1 with
  | nil => rfl
  | cons r t ih =>
    cases h : r.1 == p <;>
      simp [List.cons_append, fsLookup_cons, h, ih]

theorem fsLookup_fsWrite_self (fs : FS) (p : String) (c : FileContent) :
    fsLookup (fsWrite fs p c) p = some c := by
  simp [fsWrite, fsLookup_append, fsLookup_filter_self, fsLookup_cons]

theorem fsLookup_fsWrite_ne (fs : FS) (p q : String) (c : FileContent)
    (h : q ≠ p) : fsLookup (fsWrite fs p c) q = fsLookup fs q := by
  have hq : (p == q) = false := by
    simp
    exact fun hc => h hc.symm
  simp [fsWrite, fsLookup_append, fsLookup_filter_ne _ _ _ h,
    fsLookup_cons, hq]
  cases fsLookup fs q <;> simp [fsLookup]

theorem fsLookup_isSome_of_mem {fs : FS} {p : String} {c : FileContent}
    (h : (p, c) ∈ fs) : (fsLookup fs p).isSome := by
  induction fs with
  | nil => cases h
  | cons r t ih =>
    rcases List.mem_cons.mp h with h1 | h2
    · simp [fsLookup_cons, ← h1]
    · cases hr : r.1 == p <;> simp [fsLookup_cons, hr, ih h2]

theorem contains_of_mem {a : String} {l : List String} (h : a ∈ l) :
    l.contains a = true := by
  simpa [List.contains] using List.elem_iff.mpr h

theorem fromDict_toDict (m : MapMetadata) (h : m.extra = []) :
    MapMetadata.fromDict m.toDict = some m := by
  obtain ⟨ci, v, ps, pe, fp, fm, rd, wp, hp, ga, bd, qf, ex⟩ := m
  simp only at h
  subst h
  cases v <;> cases fm <;> rfl

theorem mem_insertDesc (a m : MapMetadata) (l : List MapMetadata) :
    a ∈ insertDesc m l ↔ a = m ∨ a ∈ l := by
  induction l with
  | nil => simp [insertDesc]
  | cons x xs ih =>
    simp only [insertDesc]
    split
    · simp
    · simp [List.mem_cons, ih]
      tauto

theorem mem_sortDesc (a : MapMetadata) (l : List MapMetadata) :
    a ∈ sortDesc l ↔ a ∈ l := by
  suffices h : ∀ acc, a ∈ l.foldl (fun acc m => insertDesc m acc) acc ↔
      a ∈ l ∨ a ∈ acc by
    have := h []
    simpa [sortDesc] using this
  induction l with
  | nil => intro acc; simp
  | cons x xs ih =>
    intro acc
    rw [List.foldl_cons, ih]
    simp [mem_insertDesc, List.mem_cons]
    tauto

theorem regGet_mem {reg : Registry} {id : String}
    {e : PipelineExecution} (h : regGet reg id = some e) :
    (id, e) ∈ reg := by
  rcases Option.map_eq_some'.mp h with ⟨q, hq, he⟩
  have hid : q.1 = id := by
    have := List.find?_some hq
    exact beq_iff_eq.mp this
  have hmem := List.mem_of_find?_eq_some hq
  have : q = (id, e) := by
    cases q
    simp only at hid he
    rw [hid, he]
  rwa [this] at hmem

theorem mem_regSet {reg : Registry} {id : String}
    {e : PipelineExecution} {q : String × PipelineExecution}
    (h : q ∈ regSet reg id e) : q = (id, e) ∨ q ∈ reg := by
  rcases List.mem_append.mp h with h1 | h2
  · exact Or.inr (List.mem_filter.mp h1).1
  · simp at h2
    exact Or.inl (by cases q; simp at h2; simp [h2.1, h2.2])

theorem get_map_isOk (fs : FS) (ci : String) (v : MapVariable)
    (ps pe : String) (fm : MapFormat) (now : Nat) (d : Date)
    (h : parseDate ps = some d) :
    ∃ r, get_map fs ci v ps pe fm now = Except.ok r := by
  unfold get_map
  rw [h]
  dsimp only
  split
  · exact ⟨none, rfl⟩
  · split
    · split
      · exact ⟨_, rfl⟩
      · exact ⟨_, rfl⟩
    · exact ⟨_, rfl⟩
    · exact ⟨_, rfl⟩

theorem check_maps_isOk (e : PipelineExecution) (env : PipelineEnv)
    (d : Date) (h : parseDate e.period_start = some d) :
    ∃ l, check_maps e env = Except.ok l := by
  obtain ⟨r, hr⟩ := get_map_isOk env.maps_fs e.county_id .rainfall
    e.period_start e.period_end .png env.now d h
  obtain ⟨t, ht⟩ := get_map_isOk env.maps_fs e.county_id .temperature
    e.period_start e.period_end .png env.now d h
  obtain ⟨w, hw⟩ := get_map_isOk env.maps_fs e.county_id .wind
    e.period_start e.period_end .png env.now d h
  unfold check_maps
  rw [hr, ht, hw]
  exact ⟨_, rfl⟩

theorem check_maps_ne_error (e : PipelineExecution)
    (env : PipelineEnv) (d : Date)
    (h : parseDate e.period_start = some d) (er : StoreErr) :
    check_maps e env ≠ Except.error er := by
  obtain ⟨l, hl⟩ := check_maps_isOk e env d h
  rw [hl]
  intro hc
  cases hc

/-! ## Claim theorems: artifact store -/

/-- Claim C8: for every Store call with a parseable periodStart, the
storage location of the artifact is
`{countyId}/{year}/{zero-padded 2-digit ISO week}/{countyId}_{variable}_{periodStart}_{periodEnd}.{format}`
with `year` the calendar year of periodStart and `week` its ISO-8601
week number; in particular periodStart 2026-01-27 yields year 2026,
week 05. -/
theorem C8_storage_path_derivation :
    (∀ (ci : String) (v : MapVariable) (ps pe : String)
        (fm : MapFormat) (d : Date), parseDate ps = some d →
      destPath ci v ps pe fm d =
        ci ++ "/" ++ toString d.year ++ "/" ++ pad2 d.isoWeek ++ "/" ++
          (ci ++ "_" ++ v.value ++ "_" ++ ps ++ "_" ++ pe ++ "." ++
            fm.value)) ∧
    parseDate "2026-01-27" = some ⟨2026, 1, 27⟩ ∧
    (⟨2026, 1, 27⟩ : Date).year = 2026 ∧
    Date.isoWeek ⟨2026, 1, 27⟩ = 5 ∧
    destPath "31" .rainfall "2026-01-27" "2026-02-02" .png ⟨2026, 1, 27⟩ =
      "31/2026/05/31_rainfall_2026-01-27_2026-02-02.png" := by
  refine ⟨fun ci v ps pe fm d _ => ?_, by decide, rfl, by decide, by decide⟩
  simp [destPath, build_storage_dir, build_file_name, String.append_assoc]

/-- Claim C8 witness: the general location formula applied to the
concrete P3 tuple. -/
theorem C8_storage_path_derivation_witness :
    destPath "31" .rainfall "2026-01-27" "2026-02-02" .png ⟨2026, 1, 27⟩ =
      "31" ++ "/" ++ toString (2026 : Nat) ++ "/" ++ pad2 5 ++ "/" ++
        ("31" ++ "_" ++ MapVariable.rainfall.value ++ "_" ++
          "2026-01-27" ++ "_" ++ "2026-02-02" ++ "." ++
          MapFormat.png.value) :=
  C8_storage_path_derivation.1 "31" .rainfall "2026-01-27" "2026-02-02"
    .png ⟨2026, 1, 27⟩ (by decide)

/-- Claim C5: if the stored binary exists at the derived location but
the sidecar metadata file does not, Store with overwrite=false fails
with the MetadataMissing error and does not modify storage. -/
theorem C5_metadata_missing_error (fs : FS) (src ci : String)
    (v : MapVariable) (ps pe : String) (fm : MapFormat)
    (kw : ExtraMeta) (now : Nat) (d : Date) (c : FileContent)
    (hps : parseDate ps = some d)
    (hsrc : fsLookup fs src = some c)
    (hdest : fsExists fs (destPath ci v ps pe fm d) = true)
    (hmeta : fsLookup fs (metadata_path (destPath ci v ps pe fm d)) =
      none) :
    store_map fs src ci v ps pe fm kw false now false =
      (.error (.metadataMissing (destPath ci v ps pe fm d)), fs) := by
  unfold store_map
  rw [hsrc, hps]
  simp [hdest, hmeta]

/-- Claim C5 witness. -/
theorem C5_metadata_missing_error_witness :
    store_map
        [("s.png", .bin [1]),
         ("31/2026/05/31_rainfall_2026-01-27_2026-02-02.png", .bin [2])]
        "s.png" "31" .rainfall "2026-01-27" "2026-02-02" .png {} false
        9 false =
      (.error (.metadataMissing
        "31/2026/05/31_rainfall_2026-01-27_2026-02-02.png"),
       [("s.png", .bin [1]),
        ("31/2026/05/31_rainfall_2026-01-27_2026-02-02.png",
          .bin [2])]) :=
  C5_metadata_missing_error _ _ _ _ _ _ _ _ 9 ⟨2026, 1, 27⟩
    (.bin [1]) (by decide) (by decide) (by decide) (by decide)

/-- Claim C6: on the write path (overwrite=true or no existing entry),
a sidecar-write failure is non-fatal: Store returns the freshly built
metadata after the binary write succeeded (only the binary is on
disk). -/
theorem C6_sidecar_failure_nonfatal (fs : FS) (src ci : String)
    (v : MapVariable) (ps pe : String) (fm : MapFormat)
    (kw : ExtraMeta) (ow : Bool) (now : Nat) (d : Date)
    (bytes : List Nat)
    (hps : parseDate ps = some d)
    (hsrc : fsLookup fs src = some (.bin bytes))
    (hok : ow = true ∨ fsExists fs (destPath ci v ps pe fm d) = false) :
    store_map fs src ci v ps pe fm kw ow now true =
      (.ok (MapMetadata.build ci v ps pe (destPath ci v ps pe fm d)
          fm kw now),
       fsWrite fs (destPath ci v ps pe fm d) (.bin bytes)) := by
  unfold store_map
  rw [hsrc, hps]
  have hcond : (fsExists fs (destPath ci v ps pe fm d) && !ow) = false := by
    rcases hok with h | h <;> simp [h]
  simp [hcond, FileContent.bytes]

/-- Claim C6 witness. -/
theorem C6_sidecar_failure_nonfatal_witness :
    store_map [("s.png", .bin [1, 2])] "s.png" "31" .rainfall
        "2026-01-27" "2026-02-02" .png {} false 7 true =
      (.ok (MapMetadata.build "31" .rainfall "2026-01-27" "2026-02-02"
          (destPath "31" .rainfall "2026-01-27" "2026-02-02" .png
            ⟨2026, 1, 27⟩) .png {} 7),
       fsWrite [("s.png", .bin [1, 2])]
         (destPath "31" .rainfall "2026-01-27" "2026-02-02" .png
           ⟨2026, 1, 27⟩) (.bin [1, 2])) :=
  C6_sidecar_failure_nonfatal _ _ _ _ _ _ _ _ false 7 ⟨2026, 1, 27⟩
    [1, 2] (by decide) (by decide) (Or.inr (by decide))

/-- Claim C7: Get on a never-written identity tuple returns nil with
no error and Delete returns false with no error; if the binary exists
without a sidecar, Get returns (no error) metadata built only from the
identity tuple and the constructor defaults. -/
theorem C7_absence_not_error (fs : FS) (ci : String) (v : MapVariable)
    (ps pe : String) (fm : MapFormat) (now : Nat) (d : Date)
    (hps : parseDate ps = some d) :
    (fsLookup fs (destPath ci v ps pe fm d) = none →
      get_map fs ci v ps pe fm now = .ok none ∧
      delete_map fs ci v ps pe fm = (.ok false, fs)) ∧
    (∀ c, fsLookup fs (destPath ci v ps pe fm d) = some c →
      fsLookup fs (metadata_path (destPath ci v ps pe fm d)) = none →
      get_map fs ci v ps pe fm now =
        .ok (some (MapMetadata.build ci v ps pe
          (destPath ci v ps pe fm d) fm {} now))) := by
  constructor
  · intro habs
    constructor
    · unfold get_map
      rw [hps]
      simp [habs]
    · unfold delete_map
      rw [hps]
      simp [fsExists, habs]
  · intro c hc hmeta
    unfold get_map
    rw [hps]
    simp [hc, hmeta]

/-- Claim C7 witness: an empty store for the absence half, and a
binary-only store for the fallback half. -/
theorem C7_absence_not_error_witness :
    (get_map [] "31" .rainfall "2026-01-27" "2026-02-02" .png 4 =
        .ok none ∧
      delete_map [] "31" .rainfall "2026-01-27" "2026-02-02" .png =
        (.ok false, [])) ∧
    get_map
        [("31/2026/05/31_rainfall_2026-01-27_2026-02-02.png",
          .bin [5])]
        "31" .rainfall "2026-01-27" "2026-02-02" .png 4 =
      .ok (some (MapMetadata.build "31" .rainfall "2026-01-27"
        "2026-02-02" (destPath "31" .rainfall "2026-01-27" "2026-02-02"
          .png ⟨2026, 1, 27⟩) .png {} 4)) :=
  ⟨(C7_absence_not_error [] "31" .rainfall "2026-01-27" "2026-02-02"
      .png 4 ⟨2026, 1, 27⟩ (by decide)).1 (by decide),
   (C7_absence_not_error _ "31" .rainfall "2026-01-27" "2026-02-02"
      .png 4 ⟨2026, 1, 27⟩ (by decide)).2 (.bin [5]) (by decide)
      (by decide)⟩

/-- Claim C2: with a parseable periodStart, calling Store with
overwrite=false twice in succession (default extra metadata, i.e. no
unknown kwargs) returns on the second call metadata equal to the first
metadata of the first call, leaves the stored binary byte-for-byte
unchanged, and performs
no write to storage on the second call (the filesystem is returned
untouched).  The two inequality hypotheses record that the artifact
path, its sidecar path, and the source path are three distinct files,
which holds for every concretely derived location. -/
theorem C2_store_idempotent (fs : FS) (src ci : String)
    (v : MapVariable) (ps pe : String) (fm : MapFormat)
    (kw : ExtraMeta) (now1 now2 : Nat) (d : Date) (bytes : List Nat)
    (hps : parseDate ps = some d)
    (hkw : kw.extra = [])
    (hsrc : fsLookup fs src = some (.bin bytes))
    (hdest : fsLookup fs (destPath ci v ps pe fm d) = none)
    (hsm : src ≠ metadata_path (destPath ci v ps pe fm d))
    (hmd : metadata_path (destPath ci v ps pe fm d) ≠
      destPath ci v ps pe fm d) :
    ∃ m1 fs1,
      store_map fs src ci v ps pe fm kw false now1 false =
        (.ok m1, fs1) ∧
      store_map fs1 src ci v ps pe fm kw false now2 false =
        (.ok m1, fs1) ∧
      fsLookup fs1 (destPath ci v ps pe fm d) = some (.bin bytes) := by
  set dest := destPath ci v ps pe fm d with hdestdef
  have hsd : src ≠ dest := by
    intro h
    rw [h, hdest] at hsrc
    cases hsrc
  set m1 := MapMetadata.build ci v ps pe dest fm kw now1 with hm1
  set fs1 := fsWrite (fsWrite fs dest (.bin bytes)) (metadata_path dest)
    (.meta m1.toDict) with hfs1
  refine ⟨m1, fs1, ?_, ?_, ?_⟩
  · unfold store_map
    rw [hsrc, hps]
    have hex : fsExists fs dest = false := by
      simp [fsExists, hdest]
    simp [hex, FileContent.bytes, hfs1, hm1]
  · have hlk_src : fsLookup fs1 src = some (.bin bytes) := by
      rw [hfs1, fsLookup_fsWrite_ne _ _ _ _ hsm,
        fsLookup_fsWrite_ne _ _ _ _ hsd, hsrc]
    have hlk_dest : fsLookup fs1 dest = some (.bin bytes) := by
      rw [hfs1, fsLookup_fsWrite_ne _ _ _ _ (Ne.symm hmd),
        fsLookup_fsWrite_self]
    have hlk_meta : fsLookup fs1 (metadata_path dest) =
        some (.meta m1.toDict) := by
      rw [hfs1, fsLookup_fsWrite_self]
    have hrt : MapMetadata.fromDict m1.toDict = some m1 :=
      fromDict_toDict m1 (by rw [hm1]; exact hkw)
    unfold store_map
    rw [hlk_src, hps]
    have hex : fsExists fs1 dest = true := by
      simp [fsExists, hlk_dest]
    simp [hex, hlk_meta, hrt]
  · rw [hfs1, fsLookup_fsWrite_ne _ _ _ _ (Ne.symm hmd),
      fsLookup_fsWrite_self]

/-- Claim C2 witness. -/
theorem C2_store_idempotent_witness :
    ∃ m1 fs1,
      store_map [("s.png", .bin [3, 4])] "s.png" "31" .rainfall
          "2026-01-27" "2026-02-02" .png {} false 6 false =
        (.ok m1, fs1) ∧
      store_map fs1 "s.png" "31" .rainfall "2026-01-27" "2026-02-02"
          .png {} false 8 false = (.ok m1, fs1) ∧
      fsLookup fs1 (destPath "31" .rainfall "2026-01-27" "2026-02-02"
        .png ⟨2026, 1, 27⟩) = some (.bin [3, 4]) :=
  C2_store_idempotent [("s.png", .bin [3, 4])] "s.png" "31" .rainfall
    "2026-01-27" "2026-02-02" .png {} 6 8 ⟨2026, 1, 27⟩ [3, 4]
    (by decide) (by decide) (by decide) (by decide) (by decide)
    (by decide)

/-- Claim C10: every artifact List returns comes from a binary path
with the png extension whose sidecar exists and parses; consequently a
map stored as svg is never listed (though Get retrieves it), and a png
binary with no sidecar is omitted (though Get returns fallback
metadata for it). -/
theorem C10_list_only_png :
    (∀ (fs : FS) (co : Option String) (v : Option MapVariable)
        (y w : Option Nat) (m : MapMetadata),
      m ∈ list_maps fs co v y w →
      ∃ p dct, (fsLookup fs p).isSome ∧ strEndsWith p ".png" = true ∧
        fsLookup fs (metadata_path p) = some (.meta dct) ∧
        MapMetadata.fromDict dct = some m) ∧
    (list_maps svgStoreFs none none none none = [] ∧
      ∃ m, get_map svgStoreFs "31" .rainfall "2026-01-27" "2026-02-02"
        .svg 4 = .ok (some m)) ∧
    (list_maps pngNoSidecarFs none none none none = [] ∧
      ∃ m, get_map pngNoSidecarFs "31" .rainfall "2026-01-27"
        "2026-02-02" .png 4 = .ok (some m)) := by
  refine ⟨?_,
    ⟨by decide,
     ⟨MapMetadata.build "31" .rainfall "2026-01-27" "2026-02-02"
        (destPath "31" .rainfall "2026-01-27" "2026-02-02" .svg
          ⟨2026, 1, 27⟩) .svg {} 3, by rfl⟩⟩,
    ⟨by decide,
     ⟨MapMetadata.build "31" .rainfall "2026-01-27" "2026-02-02"
        (destPath "31" .rainfall "2026-01-27" "2026-02-02" .png
          ⟨2026, 1, 27⟩) .png {} 4, by rfl⟩⟩⟩
  intro fs co v y w m hm
  unfold list_maps at hm
  rw [mem_sortDesc, List.mem_filterMap] at hm
  obtain ⟨pc, hpc, hf⟩ := hm
  obtain ⟨p, c⟩ := pc
  rw [List.mem_filter] at hpc
  obtain ⟨hmem, hcond⟩ := hpc
  rw [Bool.and_eq_true] at hcond
  refine ⟨p, ?_⟩
  dsimp only at hf hcond
  split at hf
  case _ dct hlk =>
    split at hf
    case _ m0 hfd =>
      split at hf
      · split at hf
        · cases hf
          exact ⟨dct, fsLookup_isSome_of_mem hmem, hcond.1, hlk, hfd⟩
        · cases hf
      · cases hf
        exact ⟨dct, fsLookup_isSome_of_mem hmem, hcond.1, hlk, hfd⟩
    case _ hfd => cases hf
  case _ hski => cases hf

/-- Claim C10 witness: a concrete png-with-sidecar store state whose
single listed artifact indeed traces back to a png binary with a
parsing sidecar. -/
theorem C10_list_only_png_witness :
    ∃ m, m ∈ list_maps
        (store_map [("s.png", .bin [1])] "s.png" "31" .rainfall
          "2026-01-27" "2026-02-02" .png {} false 6 false).2
        none none none none ∧
      ∃ p dct,
        (fsLookup (store_map [("s.png", .bin [1])] "s.png" "31"
          .rainfall "2026-01-27" "2026-02-02" .png {} false 6
          false).2 p).isSome ∧
        strEndsWith p ".png" = true ∧
        fsLookup (store_map [("s.png", .bin [1])] "s.png" "31"
          .rainfall "2026-01-27" "2026-02-02" .png {} false 6
          false).2 (metadata_path p) = some (.meta dct) ∧
        MapMetadata.fromDict dct = some m :=
  ⟨MapMetadata.build "31" .rainfall "2026-01-27" "2026-02-02"
      (destPath "31" .rainfall "2026-01-27" "2026-02-02" .png
        ⟨2026, 1, 27⟩) .png {} 6,
    by decide,
    C10_list_only_png.1 _ none none none none _ (by decide)⟩

/-! ## Claim theorems: pipeline orchestrator -/

theorem regGet_cons (q : String × PipelineExecution) (t : Registry)
    (p : String) :
    regGet (q :: t) p = if q.1 == p then some q.2 else regGet t p := by
  simp only [regGet, List.find?_cons]
  cases h : q.1 == p <;> simp [h]

theorem regGet_filter_self (reg : Registry) (p : String) :
    regGet (reg.filter (fun r => r.1 != p)) p = none := by
  induction reg with
  | nil => rfl
  | cons r t ih =>
    by_cases hr : r.1 = p
    · simp [List.filter_cons, hr, ih]
    · simp [List.filter_cons, hr, regGet_cons, ih]

theorem regGet_append (r1 r2 : Registry) (p : String) :
    regGet (r1 ++ r2) p =
      match regGet r1 p with
      | some c => some c
      | none => regGet r2 p := by
  induction r1 with
  | nil => rfl
  | cons r t ih =>
    cases h : r.1 == p <;>
      simp [List.cons_append, regGet_cons, h, ih]

theorem regGet_regSet_self (reg : Registry) (id : String)
    (e : PipelineExecution) : regGet (regSet reg id e) id = some e := by
  simp [regSet, regGet_append, regGet_filter_self, regGet_cons]

/-- Claim C1 (code bug, flagged as a defect in the concurrency
section of the spec): terminal states are not frozen.  A `cancel_pipeline` racing
a running `execute_pipeline` leaves status Cancelled, yet the
the next stage checkpoint of the execute still changes progress and
stage, and
its final `complete()` overwrites the terminal status with Completed;
likewise `execute_pipeline` on a Completed execution unconditionally
restarts it (`start` sets status Running, progress 0). -/
theorem C1_terminal_state_not_frozen :
    cancel_pipeline c1Reg "p1" 3 =
      (true, regSet c1Reg "p1" c1AfterCancel) ∧
    c1AfterCancel.status = .cancelled ∧
    (c1AfterCancel.update_stage .generating_pdf 80 4).progress = 80 ∧
    c1AfterCancel.progress = 55 ∧
    (c1AfterCancel.update_stage .generating_pdf 80 4).current_stage_started_at
      ≠ c1AfterCancel.current_stage_started_at ∧
    ((c1AfterCancel.update_stage .generating_pdf 80 4).complete 5).status
      = .completed ∧
    c1Completed.status = .completed ∧
    (c1Completed.start 9).status = .running ∧
    (c1Completed.start 9).progress = 0 ∧
    c1Completed.progress = 100 := by
  refine ⟨?_, rfl, rfl, rfl, by decide, rfl, rfl, rfl, rfl, rfl⟩
  rfl

/-- Claim C3 counterexample: Cancel on a registered execution whose
status is Cancelled (terminal, neither Pending nor Running) returns
true, contradicting the claimed "true iff status is Pending or
Running". -/
theorem C3_cancel_counterexample :
    (cancel_pipeline c3Reg "a" 7).1 = true ∧
    c3CancelledExec.status = .cancelled ∧
    c3CancelledExec.status ≠ .pending ∧
    c3CancelledExec.status ≠ .running := by
  refine ⟨rfl, rfl, by decide, by decide⟩

/-- Claim C3 as amended: Cancel(id) returns true iff the id is
registered with status not in {Completed, Failed}; on Completed or
Failed it returns false and leaves the registry (hence the execution)
unchanged; on an already Cancelled execution it returns true and, while
refreshing completedAt, leaves status, stage and progress unchanged. -/
theorem C3_cancel_amended (reg : Registry) (id : String) (now : Nat) :
    ((cancel_pipeline reg id now).1 = true ↔
      ∃ e, regGet reg id = some e ∧
        e.status ≠ PipelineStatus.completed ∧
        e.status ≠ PipelineStatus.failed) ∧
    (∀ e, regGet reg id = some e →
      e.status = PipelineStatus.completed ∨
        e.status = PipelineStatus.failed →
      cancel_pipeline reg id now = (false, reg)) ∧
    (∀ e, regGet reg id = some e →
      e.status = PipelineStatus.cancelled →
      ∃ e2, regGet (cancel_pipeline reg id now).2 id = some e2 ∧
        e2.status = e.status ∧ e2.current_stage = e.current_stage ∧
        e2.progress = e.progress) := by
  refine ⟨?_, ?_, ?_⟩
  · constructor
    · intro htrue
      unfold cancel_pipeline at htrue
      cases hr : regGet reg id with
      | none =>
        rw [hr] at htrue
        dsimp only at htrue
        simp at htrue
      | some e =>
        rw [hr] at htrue
        dsimp only at htrue
        by_cases hterm : e.status = PipelineStatus.completed ∨
            e.status = PipelineStatus.failed
        · rw [if_pos hterm] at htrue
          simp at htrue
        · push_neg at hterm
          exact ⟨e, rfl, hterm.1, hterm.2⟩
    · rintro ⟨e, hr, hc, hfa⟩
      unfold cancel_pipeline
      rw [hr]
      dsimp only
      rw [if_neg (not_or.mpr ⟨hc, hfa⟩)]
  · intro e hr hterm
    unfold cancel_pipeline
    rw [hr]
    dsimp only
    rw [if_pos hterm]
  · intro e hr hcanc
    unfold cancel_pipeline
    rw [hr]
    dsimp only
    rw [if_neg (not_or.mpr ⟨by simp [hcanc], by simp [hcanc]⟩)]
    exact ⟨{ e with status := .cancelled, completed_at := some now },
      by simp [regGet_regSet_self], hcanc.symm, rfl, rfl⟩

/-- Claim C3 witness: the amended contract applied to a concrete
registry containing one Cancelled and using one Completed execution. -/
theorem C3_cancel_amended_witness :
    ((cancel_pipeline c3Reg "a" 7).1 = true) ∧
    (cancel_pipeline [("b", c1Completed)] "b" 7 =
      (false, [("b", c1Completed)])) ∧
    (∃ e2, regGet (cancel_pipeline c3Reg "a" 7).2 "a" = some e2 ∧
      e2.status = c3CancelledExec.status ∧
      e2.current_stage = c3CancelledExec.current_stage ∧
      e2.progress = c3CancelledExec.progress) :=
  ⟨(C3_cancel_amended c3Reg "a" 7).1.mpr
      ⟨c3CancelledExec, rfl, by decide, by decide⟩,
   (C3_cancel_amended [("b", c1Completed)] "b" 7).2.1 c1Completed rfl
      (Or.inl rfl),
   (C3_cancel_amended c3Reg "a" 7).2.2 c3CancelledExec rfl rfl⟩

/-- Claim C4 counterexample: on the happy-path input the execution
does complete with progress 100 and a weather report id, but
`stages_completed` is not the five stage names once each — it has ten
entries, with "validating" appearing three times. -/
theorem C4_stages_counterexample :
    c4Result.status = .completed ∧
    c4Result.progress = 100 ∧
    c4Result.weather_report_id = some 42 ∧
    c4Result.stages_completed.count "validating" = 3 ∧
    c4Result.stages_completed ≠
      ["validating", "generating_narratives", "awaiting_maps",
       "generating_pdf", "storing_artifacts"] := by
  refine ⟨rfl, rfl, rfl, by decide, by decide⟩

/-- Claim C4 as amended: for every freshly created execution whose raw
payload contains the five required keys, whose county exists, whose
narrative persistence succeeds, and whose periodStart parses (stage 3
reads the map store keyed on it), Execute ends Completed with progress
100 and a non-nil weather_report_id, and `stagesCompleted` is exactly
the ten-entry checkpoint list (the five stage names in order, the
first four duplicated, "validating" tripled). -/
theorem C4_execute_completes (pid ci ps pe : String)
    (ks : List String) (env : PipelineEnv) (d : Date)
    (hks : ∀ f ∈ required_fields, f ∈ ks)
    (hco : ci ∈ env.counties)
    (hdb : env.narrative_insert_ok = true)
    (hps : parseDate ps = some d) :
    (execute_pipeline (PipelineExecution.create pid ci ps pe ks)
        env).status = .completed ∧
    (execute_pipeline (PipelineExecution.create pid ci ps pe ks)
        env).progress = 100 ∧
    (execute_pipeline (PipelineExecution.create pid ci ps pe ks)
        env).weather_report_id = some env.db_weather_report_id ∧
    (execute_pipeline (PipelineExecution.create pid ci ps pe ks)
        env).stages_completed = actualStagesCompleted := by
  have hval : ∀ e : PipelineExecution, e.raw_data = ks →
      e.county_id = ci → validate_input e env = none := by
    intro e hraw hci
    unfold validate_input
    have h1 : required_fields.find?
        (fun f => !(e.raw_data.contains f)) = none := by
      rw [List.find?_eq_none]
      intro f hf
      rw [hraw]
      simpa using hks f hf
    rw [h1, hci, if_pos (contains_of_mem hco)]
  unfold execute_pipeline
  dsimp only
  split
  case _ msg heq =>
    rw [hval _ rfl rfl] at heq
    cases heq
  case _ heq =>
    split
    case _ hng =>
      rw [hdb] at hng
      simp at hng
    case _ hng =>
      split
      case _ a heq2 =>
        exact absurd heq2 (check_maps_ne_error _ env d hps a)
      case _ l heq2 =>
        exact ⟨rfl, rfl, rfl, rfl⟩

/-- Claim C4 witness: the amended statement at the concrete P7
scenario. -/
theorem C4_execute_completes_witness :
    c4Result.status = .completed ∧
    c4Result.progress = 100 ∧
    c4Result.weather_report_id = some c4Env.db_weather_report_id ∧
    c4Result.stages_completed = actualStagesCompleted :=
  C4_execute_completes "p" "31" "2026-01-27" "2026-02-02"
    required_fields c4Env ⟨2026, 1, 27⟩ (fun _ hf => hf) (by decide)
    rfl (by decide)

/-- Claim C9: the mutating orchestrator operations preserve the
invariant `progress = 100 → status = Completed` and
`status ∈ {Failed, Cancelled} → completedAt ≠ nil` on every registered
execution: creation establishes it, `execute_pipeline` re-establishes
it on the execution it leaves in the registry whatever the stage
outcomes, and `cancel_pipeline` preserves it registry-wide. -/
theorem C9_invariant_preserved :
    (∀ pid ci ps pe ks,
      ExecInv (PipelineExecution.create pid ci ps pe ks)) ∧
    (∀ (e : PipelineExecution) (env : PipelineEnv),
      ExecInv (execute_pipeline e env)) ∧
    (∀ (reg : Registry) (id : String) (now : Nat),
      (∀ q ∈ reg, ExecInv q.2) →
      ∀ q ∈ (cancel_pipeline reg id now).2, ExecInv q.2) := by
  refine ⟨?_, ?_, ?_⟩
  · intro pid ci ps pe ks
    simp [ExecInv, PipelineExecution.create]
  · intro e env
    unfold execute_pipeline
    dsimp only
    split
    · simp [ExecInv, PipelineExecution.fail,
        PipelineExecution.update_stage, PipelineExecution.start]
    · split
      · simp [ExecInv, PipelineExecution.fail,
          PipelineExecution.update_stage, PipelineExecution.start]
      · split
        · simp [ExecInv, PipelineExecution.fail,
            PipelineExecution.update_stage, PipelineExecution.start]
        · simp [ExecInv, PipelineExecution.complete,
            PipelineExecution.update_stage, PipelineExecution.start]
  · intro reg id now hInv q hq
    unfold cancel_pipeline at hq
    cases hr : regGet reg id with
    | none =>
      rw [hr] at hq
      exact hInv q hq
    | some e =>
      rw [hr] at hq
      dsimp only at hq
      by_cases hterm : e.status = PipelineStatus.completed ∨
          e.status = PipelineStatus.failed
      · rw [if_pos hterm] at hq
        exact hInv q hq
      · rw [if_neg hterm] at hq
        dsimp only at hq
        rcases mem_regSet hq with hq1 | hq2
        · subst hq1
          refine ⟨?_, fun _ => by simp⟩
          intro hprog
          exfalso
          have hInvE := hInv (id, e) (regGet_mem hr)
          have : e.status = PipelineStatus.completed :=
            hInvE.1 (by simpa using hprog)
          exact hterm (Or.inl this)
        · exact hInv q hq2

/-- Claim C9 witness: the three preservation statements applied to
concrete inputs (a fresh execution, the P7 execution run, and a
cancel on a one-entry registry holding a pending execution). -/
theorem C9_invariant_preserved_witness :
    ExecInv (PipelineExecution.create "w" "31" "2026-01-27"
      "2026-02-02" []) ∧
    ExecInv (execute_pipeline c4Exec c4Env) ∧
    (∀ q ∈ (cancel_pipeline [("w", c1Created)] "w" 6).2, ExecInv q.2) :=
  ⟨C9_invariant_preserved.1 "w" "31" "2026-01-27" "2026-02-02" [],
   C9_invariant_preserved.2.1 c4Exec c4Env,
   C9_invariant_preserved.2.2 [("w", c1Created)] "w" 6 (by decide)⟩

end ClimaScope
